import Mathlib

/-!
# url-shortener: `packages/shortener/main.go`

A shallow embedding of the HTTP handlers of the shortener (`getUrl`, `getUrls`,
`redirect`, `shorten`, `createRouter`, `getErrorCodeFromDBError`) and of the
token derivation inside `shorten`.

Conventions.

* A Go `string` is a sequence of bytes (`GoString`); string literals of the
  source are written `lit "..."` (their UTF-8 bytes).
* A handler is a function from the request data and the state of the store to
  the list of effects it performs, in program order (`Event`), and the state of
  the store afterwards.
* The database handle `*sqlx.DB` is a record of the three statements the
  source issues (`DB`); library functions whose code is not part of the
  repository (`md5.Sum`, `uuid.NewV7`) are parameters of the handlers.
-/

namespace Shortener

/-! ## Go strings -/

/-- A Go string: an immutable sequence of bytes. -/
abbrev GoString := List UInt8

/-- The bytes of a string literal of the source (UTF-8). -/
def lit (s : String) : GoString := s.data.flatMap String.utf8EncodeChar

/-- Go slice expression `s[:hi]` on a string; `none` is the run-time panic
"slice bounds out of range" (`hi < 0` or `hi > len(s)`). -/
def sliceTo (s : GoString) (hi : Int) : Option GoString :=
  if 0 ≤ hi ∧ hi ≤ (s.length : Int) then some (s.take hi.toNat) else none

/-- Scan of `strings.Index`: position (counted from `i`) of the first
occurrence of `substr` in `s`, or `-1`. -/
def strings.indexFrom (substr : GoString) : GoString → Nat → Int
  | [], i => if substr = [] then (i : Int) else -1
  | c :: cs, i =>
    if substr.isPrefixOf (c :: cs) then (i : Int) else strings.indexFrom substr cs (i + 1)

/-- Go `strings.Index(s, substr)`: index of the first instance of `substr` in
`s`, or `-1` if `substr` is not present in `s`. -/
def strings.Index (s substr : GoString) : Int := strings.indexFrom substr s 0

/-- Go `strings.Contains(s, substr)`, which is `Index(s, substr) >= 0`. -/
def strings.Contains (s substr : GoString) : Bool := decide (strings.Index s substr ≥ 0)

/-! ## `fmt.Sprintf("%x", ...)` on a byte array -/

/-- The digit table of package `fmt` (`ldigits`). -/
def ldigits : GoString := lit "0123456789abcdefx"

/-- The two characters `%x` prints for one byte: `ldigits[c>>4]`, `ldigits[c&0xF]`. -/
def hexByte (c : UInt8) : GoString :=
  [ldigits.getD (c.toNat >>> 4) 0, ldigits.getD (c.toNat &&& 0xF) 0]

/-- The verb `%x` applied to a sequence of bytes: two lowercase hexadecimal
characters per byte, no separator. -/
def hexEncode (b : List UInt8) : GoString := b.flatMap hexByte

/-- A Go value of type `[16]byte` (the result type of `md5.Sum`, and the
representation of `uuid.UUID`). -/
structure Bytes16 where
  bytes : List UInt8
  size : bytes.length = 16

/-- The expression `fmt.Sprintf("%x", sum)` for `sum : [16]byte`. -/
def Sprintf_x (sum : Bytes16) : GoString := hexEncode sum.bytes

/-- Lines 104-105 of `shorten`, after `md5.Sum` returned `sum`:
`hash := fmt.Sprintf("%x", sum); path := hash[:len(hash)-20]`.
`none` stands for the panic of an out-of-range slice bound. -/
def shortenPath (sum : Bytes16) : Option GoString :=
  let hash := Sprintf_x sum
  sliceTo hash ((hash.length : Int) - 20)

/-- The characters `0-9` and `a-f`. -/
def isLowerHex (c : UInt8) : Prop := c ∈ lit "0123456789abcdef"

/-! ## Errors and status codes -/

/-- A Go `error` value, as far as the source inspects it: its message
`err.Error()`. -/
structure error where
  Error : GoString
deriving DecidableEq, Repr

def StatusOK : Nat := 200
def StatusCreated : Nat := 201
def StatusNoContent : Nat := 204
def StatusFound : Nat := 302
def StatusBadRequest : Nat := 400
def StatusNotFound : Nat := 404
def StatusInternalServerError : Nat := 500

/-- Source lines 26-33. -/
def getErrorCodeFromDBError (err : error) : Nat :=
  let errString := err.Error
  if strings.Contains errString (lit "no rows") then
    StatusNotFound
  else
    StatusInternalServerError

/-! ## Records, requests and effects -/

/-- Source lines 16-20. -/
structure urlMap where
  Id : GoString
  Url : GoString
  Shortened : GoString
deriving DecidableEq, Repr

/-- Source lines 22-24. -/
structure shortenRequestBody where
  Url : GoString
deriving DecidableEq, Repr

/-- One entry of `gin.Params`. -/
structure Param where
  Key : GoString
  Value : GoString
deriving DecidableEq, Repr

/-- The URL parameters of a request, `c.Params`. -/
abbrev Params := List Param

/-- The method `gin.Params.Get`: the value of the first entry whose key is
`name` and `true`, or the empty string and `false`. -/
def Params.Get : Params → GoString → GoString × Bool
  | [], _ => ([], false)
  | entry :: ps, name => if entry.Key = name then (entry.Value, true) else Params.Get ps name

/-- The column compared with `$1` in a `select * from url where <column>=$1`. -/
inductive Column where
  | id
  | shortened
deriving DecidableEq, Repr

/-- The value of a column in a row. -/
def Column.of : Column → urlMap → GoString
  | .id, r => r.Id
  | .shortened, r => r.Shortened

/-- The object handed to `c.JSON`. -/
inductive Payload where
  | text (s : GoString)
  | record (u : urlMap)
  | records (us : List urlMap)
deriving DecidableEq, Repr

/-- The effects of a handler, in program order. -/
inductive Event where
  /-- A call `db.Get(&dest, "select * from url where <column>=$1", arg)`. -/
  | Get (column : Column) (arg : GoString)
  /-- A call `db.Select(&urls, "select * from url;")`. -/
  | Select
  /-- A call `db.Exec("insert into url (url, shortened) values ($1, $2);", url, path)`. -/
  | Exec (url path : GoString)
  /-- A call `log.Println(err)`. -/
  | Println (err : error)
  /-- A call `c.JSON(code, obj)`. -/
  | JSON (code : Nat) (obj : Payload)
  /-- A call `c.Redirect(code, location)`. -/
  | Redirect (code : Nat) (location : GoString)
  /-- A call `c.Status(code)`. -/
  | Status (code : Nat)
  /-- The `c.AbortWithError(code, err)` that `c.BindJSON` performs when it fails. -/
  | AbortWithError (code : Nat) (err : error)
  /-- A run-time panic of the handler. -/
  | Panic
deriving DecidableEq, Repr

/-- The handle `*sqlx.DB` as the handlers use it, over store states `σ`: the
outcome of each of the three statements of the source in a given state, and
the state that follows. `Get` and `Select` take the value of the destination
(`&url`, `&urls`) before the call and yield its value after the call and the
error returned, if any (a call of `sqlx` that fails before a row is scanned
leaves the destination as it was); `Exec` yields the error of the insert, if
any. -/
structure DB (σ : Type) where
  Get : σ → Column → GoString → urlMap → (urlMap × Option error) × σ
  Select : σ → List urlMap → (List urlMap × Option error) × σ
  Exec : σ → GoString → GoString → Option error × σ

/-! ## `c.BindJSON(&requestBody)` -/

/-- A JSON value. -/
inductive JSONValue where
  | null
  | bool (b : Bool)
  | number (text : GoString)
  | string (s : GoString)
  | array (elems : List JSONValue)
  | object (members : List (GoString × JSONValue))

/-- The body of a POST request as the JSON decoder sees it: the JSON value it
reads, or the error of the decoder when the body is not well-formed JSON. -/
abbrev RequestBody := Except error JSONValue

/-- ASCII lower case of a byte. -/
def asciiLower (c : UInt8) : UInt8 := if 65 ≤ c.toNat ∧ c.toNat ≤ 90 then c + 32 else c

/-- Whether an object key selects the struct field tagged `json:"url"`:
package `encoding/json` matches the key exactly or, failing that, without
regard to letter case. -/
def isUrlKey (key : GoString) : Bool := key.map asciiLower == lit "url"

/-- The kind of a JSON value as `json.UnmarshalTypeError` names it. -/
def JSONValue.kind : JSONValue → String
  | .null => "null"
  | .bool _ => "bool"
  | .number _ => "number"
  | .string _ => "string"
  | .array _ => "array"
  | .object _ => "object"

/-- Decoding the members of a JSON object into `shortenRequestBody`, in order:
a string under the key `url` is stored, a `null` there has no effect, any
other value there is a type error (the first one is the error returned, and
decoding goes on); other keys are skipped. -/
def decodeMembers : List (GoString × JSONValue) → shortenRequestBody → Option error →
    shortenRequestBody × Option error
  | [], dest, saved => (dest, saved)
  | (key, v) :: rest, dest, saved =>
    if isUrlKey key then
      match v with
      | .string s => decodeMembers rest { dest with Url := s } saved
      | .null => decodeMembers rest dest saved
      | other =>
        decodeMembers rest dest (saved.orElse fun _ => some ⟨lit ("json: cannot unmarshal " ++
          other.kind ++ " into Go struct field shortenRequestBody.url of type string")⟩)
    else decodeMembers rest dest saved

/-- The call `c.BindJSON(&requestBody)` on a zero-valued `requestBody`
(source lines 90-91): the JSON decoder of package `encoding/json` applied to
the body, followed by the validation of the `binding` struct tags, of which
`shortenRequestBody` has none. -/
def BindJSON (body : RequestBody) : Except error shortenRequestBody :=
  match body with
  | .error err => .error err
  | .ok .null => .ok ⟨[]⟩
  | .ok (.object members) =>
    match decodeMembers members ⟨[]⟩ none with
    | (dest, none) => .ok dest
    | (_, some err) => .error err
  | .ok other => .error ⟨lit ("json: cannot unmarshal " ++ other.kind ++
      " into Go value of type main.shortenRequestBody")⟩

/-! ## `uuid.UUID.String` -/

/-- The method `String` of `uuid.UUID`: the form
`xxxxxxxx-xxxx-xxxx-xxxx-xxxxxxxxxxxx` of the 16 bytes. -/
def UUID.String (u : Bytes16) : GoString :=
  hexEncode (u.bytes.take 4) ++ lit "-" ++
  hexEncode ((u.bytes.drop 4).take 2) ++ lit "-" ++
  hexEncode ((u.bytes.drop 6).take 2) ++ lit "-" ++
  hexEncode ((u.bytes.drop 8).take 2) ++ lit "-" ++
  hexEncode (u.bytes.drop 10)

/-! ## The handlers -/

section Handlers

variable {σ : Type}

/-- Source lines 38-52: gets a single url by id. -/
def getUrl (db : DB σ) (c : Params) (s : σ) : List Event × σ :=
  match Params.Get c (lit "id") with
  | (_, false) => ([.JSON StatusBadRequest (.text (lit "ID missing"))], s)
  | (id, true) =>
    -- var url urlMap; err := db.Get(&url, "select * from url where shortened=$1;", id)
    match db.Get s .shortened id ⟨[], [], []⟩ with
    | ((_, some err), s1) =>
      ([.Get .shortened id, .Println err,
        .JSON (getErrorCodeFromDBError err) (.text (lit "An error occurred"))], s1)
    | ((url, none), s1) => ([.Get .shortened id, .Redirect StatusFound url.Url], s1)

/-- Source lines 57-66: gets all saved urls. -/
def getUrls (db : DB σ) (s : σ) : List Event × σ :=
  -- var urls []urlMap; err := db.Select(&urls, "select * from url;")
  match db.Select s [] with
  | ((_, some err), s1) =>
    ([.Select, .Println err,
      .JSON (getErrorCodeFromDBError err) (.text (lit "An error occurred"))], s1)
  | ((urls, none), s1) => ([.Select, .JSON StatusOK (.records urls)], s1)

/-- Source lines 71-84: lookup path then redirect to associated website. The
branch for a missing parameter (lines 73-75) has no `return`: execution goes
on at line 76 with `path` the empty string. -/
def redirect (db : DB σ) (c : Params) (s : σ) : List Event × σ :=
  let got := Params.Get c (lit "path")
  let path := got.1
  let missing : List Event :=
    if !got.2 then [.JSON StatusBadRequest (.text (lit "Path missing"))] else []
  -- var url urlMap; err := db.Get(&url, "select * from url where id=$1;", path)
  match db.Get s .id path ⟨[], [], []⟩ with
  | ((_, some err), s1) =>
    (missing ++ [.Get .id path, .Println err,
      .JSON (getErrorCodeFromDBError err) (.text (lit "An error occurred"))], s1)
  | ((url, none), s1) => (missing ++ [.Get .id path, .Redirect StatusFound url.Url], s1)

/-- Source lines 89-119: takes a request body that contains a url, creates a
unique path for it and saves it to the db. `md5Sum` is `md5.Sum` and `NewV7`
the outcome of the call `uuid.NewV7()`. -/
def shorten (db : DB σ) (md5Sum : GoString → Bytes16) (NewV7 : Except error Bytes16)
    (body : RequestBody) (s : σ) : List Event × σ :=
  match BindJSON body with
  | .error err =>
    ([.AbortWithError StatusBadRequest err, .Println err,
      .JSON StatusBadRequest (.text (lit "An error occurred"))], s)
  | .ok requestBody =>
    match NewV7 with
    | .error err =>
      ([.Println err, .JSON StatusInternalServerError (.text (lit "An error occurred"))], s)
    | .ok id =>
      match shortenPath (md5Sum (UUID.String id)) with
      | none => ([.Panic], s)
      | some path =>
        match db.Exec s requestBody.Url path with
        | (some err, s1) =>
          ([.Exec requestBody.Url path, .Println err,
            .JSON (getErrorCodeFromDBError err) (.text (lit "An error occurred"))], s1)
        | (none, s1) =>
          -- assign struct vals incase db query fails
          let newUrlMap : urlMap := { Id := [], Url := requestBody.Url, Shortened := path }
          -- _ = db.Get(&newUrlMap, "select * from url where shortened=$1", path)
          match db.Get s1 .shortened path newUrlMap with
          | ((newUrlMap, _), s2) =>
            ([.Exec requestBody.Url path, .Get .shortened path,
              .JSON StatusCreated (.record newUrlMap)], s2)

/-- A request as the router of `createRouter` dispatches it: the route that
matched, with the value captured for its parameter, and for `POST /url` the
body and the outcome of `uuid.NewV7()`. -/
inductive Request where
  | getUrls
  | postUrl (body : RequestBody) (NewV7 : Except error Bytes16)
  | getUrlId (id : GoString)
  | favicon
  | getPath (path : GoString)

/-- Source lines 121-141: the handler registered for each route. -/
def createRouter (db : DB σ) (md5Sum : GoString → Bytes16) : Request → σ → List Event × σ
  | .getUrls, s => getUrls db s
  | .postUrl body NewV7, s => shorten db md5Sum NewV7 body s
  | .getUrlId id, s => getUrl db [⟨lit "id", id⟩] s
  | .favicon, s => ([.Status StatusNoContent], s)
  | .getPath path, s => redirect db [⟨lit "path", path⟩] s

end Handlers

/-! ## The store -/

/-- Modelled from the spec: the table `url` of the store, whose schema is not
among the sources ("a single table/collection of UrlRecord keyed by `id`, with
a uniqueness constraint on `shortened`"). `rows` are the records in insertion
order and `serial` counts the identifiers the store has assigned. -/
structure Table where
  rows : List urlMap
  serial : Nat
deriving DecidableEq, Repr

/-- The empty store. -/
def Table.empty : Table := ⟨[], 0⟩

/-- The error `sql.ErrNoRows` of package `database/sql`, which `db.Get`
returns when the query selects no row. -/
def ErrNoRows : error := ⟨lit "sql: no rows in result set"⟩

/-- The error of an insert that violates a uniqueness constraint. -/
def ErrDuplicateKey (constraint : String) : error :=
  ⟨lit ("pq: duplicate key value violates unique constraint \"" ++ constraint ++ "\"")⟩

/-- Modelled from the spec: a `select * from url where <column>=$1` scanned
into one record: the destination receives the first row whose column equals
the argument; when there is none the destination is not written and the error
is `sql.ErrNoRows` ("the matching record, or NotFound if no record has that
token"). -/
def Table.Get (t : Table) (column : Column) (arg : GoString) (dest : urlMap) :
    urlMap × Option error :=
  match t.rows.find? (fun r => column.of r == arg) with
  | some r => (r, none)
  | none => (dest, some ErrNoRows)

/-- Modelled from the spec: the insert of `(url, shortened)`. The store assigns
the identifier `newId serial` ("an internally assigned identifier ... assigned
at creation") and rejects the row when its `shortened` is already present
("a uniqueness constraint on `shortened`") or its identifier is (the table is
"keyed by `id`"); otherwise the row is appended. -/
def Table.Exec (newId : Nat → GoString) (t : Table) (url path : GoString) :
    Option error × Table :=
  if t.rows.any (fun r => r.Shortened == path) then
    (some (ErrDuplicateKey "url_shortened_key"), t)
  else if t.rows.any (fun r => r.Id == newId t.serial) then
    (some (ErrDuplicateKey "url_pkey"), t)
  else
    (none, ⟨t.rows ++ [⟨newId t.serial, url, path⟩], t.serial + 1⟩)

/-- The store as a database handle: every statement reaches the table. -/
def table (newId : Nat → GoString) : DB Table where
  Get t column arg dest := (t.Get column arg dest, t)
  Select t dest := ((dest ++ t.rows, none), t)
  Exec t url path := t.Exec newId url path

/-- Identifiers of a `serial` key in text form: `"1"`, `"2"`, ... -/
def serialId (n : Nat) : GoString := lit (toString (n + 1))

/-- A database handle that can fail before a statement reaches the store. The
state carries a schedule with one entry per statement to come: `some err`
makes the statement return `err` and leaves the store as it is, `none` (or an
exhausted schedule) lets the statement through. -/
def withFaults {σ : Type} (db : DB σ) : DB (σ × List (Option error)) where
  Get st column arg dest :=
    match st.2 with
    | some err :: rest => ((dest, some err), (st.1, rest))
    | faults => ((db.Get st.1 column arg dest).1, ((db.Get st.1 column arg dest).2, faults.tail))
  Select st dest :=
    match st.2 with
    | some err :: rest => ((dest, some err), (st.1, rest))
    | faults => ((db.Select st.1 dest).1, ((db.Select st.1 dest).2, faults.tail))
  Exec st url path :=
    match st.2 with
    | some err :: rest => (some err, (st.1, rest))
    | faults => ((db.Exec st.1 url path).1, ((db.Exec st.1 url path).2, faults.tail))

/-- No two records of the table have the same `shortened`. -/
def Table.uniqueShortened (t : Table) : Prop :=
  t.rows.Pairwise (fun a b => a.Shortened ≠ b.Shortened)

/-- The state of the store after a sequence of requests served one after the
other by the router. -/
def serve {σ : Type} (db : DB σ) (md5Sum : GoString → Bytes16) (requests : List Request)
    (s : σ) : σ :=
  requests.foldl (fun st r => (createRouter db md5Sum r st).2) s

/-! ## Concurrent executions of `shorten` -/

/-- A call of `shorten` in flight: not started, stopped between the insert and
the re-read (with the effects so far and the record held in memory), or
finished (with all its effects). -/
inductive Call where
  | start (body : RequestBody) (NewV7 : Except error Bytes16)
  | inserted (sofar : List Event) (newUrlMap : urlMap)
  | finished (events : List Event)

section Concurrent

variable {σ : Type}

/-- One call of `shorten` advanced up to and including its next statement on
the store (lines 90-111 for a call not started, lines 113-118 for a call
stopped after its insert). -/
def Call.step (db : DB σ) (md5Sum : GoString → Bytes16) : Call → σ → Call × σ
  | .start body NewV7, s =>
    match BindJSON body with
    | .error err =>
      (.finished [.AbortWithError StatusBadRequest err, .Println err,
        .JSON StatusBadRequest (.text (lit "An error occurred"))], s)
    | .ok requestBody =>
      match NewV7 with
      | .error err =>
        (.finished [.Println err,
          .JSON StatusInternalServerError (.text (lit "An error occurred"))], s)
      | .ok id =>
        match shortenPath (md5Sum (UUID.String id)) with
        | none => (.finished [.Panic], s)
        | some path =>
          match db.Exec s requestBody.Url path with
          | (some err, s1) =>
            (.finished [.Exec requestBody.Url path, .Println err,
              .JSON (getErrorCodeFromDBError err) (.text (lit "An error occurred"))], s1)
          | (none, s1) =>
            (.inserted [.Exec requestBody.Url path]
              { Id := [], Url := requestBody.Url, Shortened := path }, s1)
  | .inserted sofar newUrlMap, s =>
    match db.Get s .shortened newUrlMap.Shortened newUrlMap with
    | ((reread, _), s1) =>
      (.finished (sofar ++ [.Get .shortened newUrlMap.Shortened,
        .JSON StatusCreated (.record reread)]), s1)
  | .finished events, s => (.finished events, s)

/-- A schedule step: the call at position `i` advances by one statement, the
other calls stand still. -/
def advance (db : DB σ) (md5Sum : GoString → Bytes16) (i : Nat) (st : σ × List Call) :
    σ × List Call :=
  match st.2[i]? with
  | none => st
  | some call => ((call.step db md5Sum st.1).2, st.2.set i (call.step db md5Sum st.1).1)

/-- The state of the store and of the calls after the calls advanced, one
statement at a time, in the order given by `schedule`. -/
def interleave (db : DB σ) (md5Sum : GoString → Bytes16) (schedule : List Nat)
    (st : σ × List Call) : σ × List Call :=
  schedule.foldl (fun x i => advance db md5Sum i x) st

end Concurrent

/-! ## Concrete values used in examples -/

/-- The UUID `01890a5d-ac96-774b-bcce-b302099a8057` (version 7). -/
def exampleUUID : Bytes16 :=
  ⟨[0x01, 0x89, 0x0a, 0x5d, 0xac, 0x96, 0x77, 0x4b, 0xbc, 0xce, 0xb3, 0x02, 0x09, 0x9a,
    0x80, 0x57], rfl⟩

/-- The MD5 digest `188ee1d9ab598c613e7548cb76738d52` of the text of
`exampleUUID`. -/
def exampleSum : Bytes16 :=
  ⟨[0x18, 0x8e, 0xe1, 0xd9, 0xab, 0x59, 0x8c, 0x61, 0x3e, 0x75, 0x48, 0xcb, 0x76, 0x73,
    0x8d, 0x52], rfl⟩

/-- A stand-in for `md5.Sum` in examples: the digest `exampleSum` on the text
of `exampleUUID`, zeros on any other input. -/
def exampleMd5Sum (data : GoString) : Bytes16 :=
  if data = lit "01890a5d-ac96-774b-bcce-b302099a8057" then exampleSum
  else ⟨List.replicate 16 0, rfl⟩

/-- The body `{"url":"https://example.com"}`. -/
def exampleBody : RequestBody :=
  .ok (.object [(lit "url", .string (lit "https://example.com"))])

/-- A store holding the single record
`(id = "1", url = "https://example.com", shortened = "188ee1d9ab59")`. -/
def exampleTable : Table :=
  ⟨[⟨lit "1", lit "https://example.com", lit "188ee1d9ab59"⟩], 1⟩

/-! ## Lemmas on strings -/

theorem strings.indexFrom_nonneg_iff (substr : GoString) :
    ∀ (s : GoString) (i : Nat), 0 ≤ strings.indexFrom substr s i ↔ substr <:+: s := by
  intro s
  induction s with
  | nil =>
    intro i
    by_cases h : substr = []
    · simp [strings.indexFrom, h]
    · simp [strings.indexFrom, h]
  | cons c cs ih =>
    intro i
    unfold strings.indexFrom
    by_cases hp : substr.isPrefixOf (c :: cs) = true
    · rw [if_pos hp]
      have hpre : substr <+: c :: cs := List.isPrefixOf_iff_prefix.mp hp
      exact ⟨fun _ => hpre.isInfix, fun _ => Int.ofNat_nonneg i⟩
    · rw [if_neg hp, ih (i + 1)]
      have hnp : ¬ substr <+: c :: cs := fun h => hp (List.isPrefixOf_iff_prefix.mpr h)
      rw [List.infix_cons_iff]
      exact ⟨Or.inr, fun h => h.resolve_left hnp⟩

theorem strings.Contains_iff (s substr : GoString) :
    strings.Contains s substr = true ↔ substr <:+: s := by
  simp [strings.Contains, strings.Index, strings.indexFrom_nonneg_iff]

/-! ## Lemmas on the hexadecimal rendering -/

theorem ldigits_lowerHex : ∀ k < 16, isLowerHex (ldigits.getD k 0) := by
  unfold isLowerHex
  decide

theorem hexDigit_lowerHex (n : Nat) (hn : n < 256) :
    isLowerHex (ldigits.getD (n >>> 4) 0) ∧ isLowerHex (ldigits.getD (n &&& 0xF) 0) := by
  constructor
  · apply ldigits_lowerHex
    rw [Nat.shiftRight_eq_div_pow]
    omega
  · apply ldigits_lowerHex
    have h : n &&& 0xF = n % 2 ^ 4 := Nat.and_pow_two_sub_one_eq_mod n 4
    rw [h]
    exact Nat.mod_lt _ (by norm_num)

theorem hexByte_lowerHex (c x : UInt8) (hx : x ∈ hexByte c) : isLowerHex x := by
  have h := hexDigit_lowerHex c.toNat (UInt8.toNat_lt c)
  simp only [hexByte, List.mem_cons, List.mem_singleton, List.not_mem_nil, or_false] at hx
  rcases hx with rfl | rfl
  · exact h.1
  · exact h.2

theorem hexEncode_length (b : List UInt8) : (hexEncode b).length = 2 * b.length := by
  induction b with
  | nil => rfl
  | cons c cs ih =>
    have hc : hexEncode (c :: cs) = hexByte c ++ hexEncode cs := rfl
    rw [hc, List.length_append, ih]
    simp [hexByte]
    omega

theorem hexEncode_lowerHex (b : List UInt8) (x : UInt8) (hx : x ∈ hexEncode b) :
    isLowerHex x := by
  simp only [hexEncode, List.mem_flatMap] at hx
  obtain ⟨c, _, hc⟩ := hx
  exact hexByte_lowerHex c x hc

theorem Sprintf_x_length (sum : Bytes16) : (Sprintf_x sum).length = 32 := by
  rw [Sprintf_x, hexEncode_length, sum.size]

theorem shortenPath_eq (sum : Bytes16) : shortenPath sum = some ((Sprintf_x sum).take 12) := by
  simp [shortenPath, sliceTo, Sprintf_x_length]

theorem decodeMembers_no_url (members : List (GoString × JSONValue))
    (hno : ∀ m ∈ members, isUrlKey m.1 = false) (dest : shortenRequestBody)
    (saved : Option error) : decodeMembers members dest saved = (dest, saved) := by
  induction members with
  | nil => rfl
  | cons m rest ih =>
    obtain ⟨key, v⟩ := m
    have hk : isUrlKey key = false := hno (key, v) (List.mem_cons_self _ _)
    have hrest : ∀ m ∈ rest, isUrlKey m.1 = false :=
      fun m hm => hno m (List.mem_cons_of_mem _ hm)
    simp [decodeMembers, hk, ih hrest]

theorem Params.Get_missing (c : Params) (name : GoString)
    (h : (Params.Get c name).2 = false) : Params.Get c name = ([], false) := by
  induction c with
  | nil => rfl
  | cons entry ps ih =>
    unfold Params.Get at h ⊢
    by_cases hk : entry.Key = name
    · simp [hk] at h
    · simp only [hk, if_false] at h ⊢
      exact ih h

theorem shortenPath_length (sum : Bytes16) (path : GoString)
    (h : shortenPath sum = some path) : path.length = 12 := by
  rw [shortenPath_eq] at h
  cases h
  rw [List.length_take, Sprintf_x_length]
  rfl

/-! ## Lemmas on the store and the handlers -/

theorem redirect_missing_path {σ : Type} (db : DB σ) (c : Params) (s : σ)
    (hmissing : (Params.Get c (lit "path")).2 = false) :
    redirect db c s =
      match db.Get s .id [] ⟨[], [], []⟩ with
      | ((_, some err), s1) =>
        ([.JSON StatusBadRequest (.text (lit "Path missing")), .Get .id [], .Println err,
          .JSON (getErrorCodeFromDBError err) (.text (lit "An error occurred"))], s1)
      | ((url, none), s1) =>
        ([.JSON StatusBadRequest (.text (lit "Path missing")), .Get .id [],
          .Redirect StatusFound url.Url], s1) := by
  simp only [redirect, Params.Get_missing c _ hmissing]
  split <;> simp_all

theorem redirect_routed {σ : Type} (db : DB σ) (path : GoString) (s : σ) :
    redirect db [⟨lit "path", path⟩] s =
      match db.Get s .id path ⟨[], [], []⟩ with
      | ((_, some err), s1) =>
        ([.Get .id path, .Println err,
          .JSON (getErrorCodeFromDBError err) (.text (lit "An error occurred"))], s1)
      | ((url, none), s1) => ([.Get .id path, .Redirect StatusFound url.Url], s1) := by
  have hget : Params.Get [⟨lit "path", path⟩] (lit "path") = (path, true) := by
    simp [Params.Get]
  simp only [redirect, hget]
  split <;> simp_all

theorem Table.Exec_unique (newId : Nat → GoString) (t : Table) (url path : GoString)
    (h : t.uniqueShortened) : (t.Exec newId url path).2.uniqueShortened := by
  unfold Table.Exec
  split
  · exact h
  · rename_i hnew
    split
    · exact h
    · unfold Table.uniqueShortened
      rw [List.pairwise_append]
      refine ⟨h, List.pairwise_singleton _ _, ?_⟩
      intro a ha b hb
      rw [List.mem_singleton] at hb
      subst hb
      intro heq
      apply hnew
      rw [List.any_eq_true]
      exact ⟨a, ha, by simpa using heq⟩

theorem shorten_table_state (newId : Nat → GoString) (md5Sum : GoString → Bytes16)
    (NewV7 : Except error Bytes16) (body : RequestBody) (t : Table) :
    (shorten (table newId) md5Sum NewV7 body t).2 = t ∨
    ∃ url path, (shorten (table newId) md5Sum NewV7 body t).2 = (t.Exec newId url path).2 := by
  unfold shorten
  split
  · exact Or.inl rfl
  · rename_i requestBody _
    split
    · exact Or.inl rfl
    · split
      · exact Or.inl rfl
      · rename_i path _
        right
        refine ⟨requestBody.Url, path, ?_⟩
        split
        · rename_i h
          simp only [table] at h
          rw [h]
        · rename_i h
          simp only [table] at h
          rw [h]
          simp only [table]

theorem getUrl_table_state (newId : Nat → GoString) (c : Params) (t : Table) :
    (getUrl (table newId) c t).2 = t := by
  unfold getUrl
  split
  · rfl
  · split <;> rename_i hg <;> simp only [table, Prod.mk.injEq] at hg <;> exact hg.2.symm

theorem redirect_table_state (newId : Nat → GoString) (c : Params) (t : Table) :
    (redirect (table newId) c t).2 = t := by
  simp only [redirect]
  split <;> rename_i hg <;> simp only [table, Prod.mk.injEq] at hg <;> exact hg.2.symm

theorem createRouter_unique (newId : Nat → GoString) (md5Sum : GoString → Bytes16)
    (r : Request) (t : Table) (h : t.uniqueShortened) :
    (createRouter (table newId) md5Sum r t).2.uniqueShortened := by
  cases r with
  | getUrls => exact h
  | postUrl body NewV7 =>
    rcases shorten_table_state newId md5Sum NewV7 body t with hs | ⟨url, path, hs⟩
    · simp only [createRouter]
      rw [hs]
      exact h
    · simp only [createRouter]
      rw [hs]
      exact Table.Exec_unique newId t url path h
  | getUrlId id =>
    simp only [createRouter]
    rw [getUrl_table_state]
    exact h
  | favicon => exact h
  | getPath path =>
    simp only [createRouter]
    rw [redirect_table_state]
    exact h

theorem serve_unique (newId : Nat → GoString) (md5Sum : GoString → Bytes16)
    (requests : List Request) :
    ∀ t : Table, t.uniqueShortened →
      (serve (table newId) md5Sum requests t).uniqueShortened := by
  induction requests with
  | nil => exact fun t h => h
  | cons r rest ih =>
    intro t h
    exact ih _ (createRouter_unique newId md5Sum r t h)

/-! ## Lemmas on concurrent calls -/

/-- A call of `shorten` run alone, statement by statement, is `shorten`. -/
theorem Call.step_step_eq_shorten {σ : Type} (db : DB σ) (md5Sum : GoString → Bytes16)
    (NewV7 : Except error Bytes16) (body : RequestBody) (s : σ) :
    (((Call.start body NewV7).step db md5Sum s).1.step db md5Sum
        ((Call.start body NewV7).step db md5Sum s).2) =
      (.finished (shorten db md5Sum NewV7 body s).1, (shorten db md5Sum NewV7 body s).2) := by
  rcases hb : BindJSON body with e | requestBody
  · simp [shorten, Call.step, hb]
  · rcases NewV7 with e | id
    · simp [shorten, Call.step, hb]
    · rcases hp : shortenPath (md5Sum (UUID.String id)) with _ | path
      · simp [shorten, Call.step, hb, hp]
      · rcases he : db.Exec s requestBody.Url path with ⟨_ | err, s1⟩
        · simp [shorten, Call.step, hb, hp, he]
        · simp [shorten, Call.step, hb, hp, he]

theorem Call.step_table_state (newId : Nat → GoString) (md5Sum : GoString → Bytes16)
    (call : Call) (t : Table) :
    (call.step (table newId) md5Sum t).2 = t ∨
    ∃ url path, (call.step (table newId) md5Sum t).2 = (t.Exec newId url path).2 := by
  cases call with
  | start body NewV7 =>
    simp only [Call.step]
    split
    · exact Or.inl rfl
    · rename_i requestBody _
      split
      · exact Or.inl rfl
      · split
        · exact Or.inl rfl
        · rename_i path _
          right
          refine ⟨requestBody.Url, path, ?_⟩
          split <;> rename_i h <;> simp only [table] at h <;> rw [h]
  | inserted sofar newUrlMap =>
    left
    simp only [Call.step, table]
  | finished events => exact Or.inl rfl

theorem advance_unique (newId : Nat → GoString) (md5Sum : GoString → Bytes16) (i : Nat)
    (st : Table × List Call) (h : st.1.uniqueShortened) :
    (advance (table newId) md5Sum i st).1.uniqueShortened := by
  unfold advance
  split
  · exact h
  · rename_i call _
    rcases Call.step_table_state newId md5Sum call st.1 with hs | ⟨url, path, hs⟩
    · simp only [hs]
      exact h
    · simp only [hs]
      exact Table.Exec_unique newId st.1 url path h

theorem interleave_unique (newId : Nat → GoString) (md5Sum : GoString → Bytes16)
    (schedule : List Nat) :
    ∀ st : Table × List Call, st.1.uniqueShortened →
      (interleave (table newId) md5Sum schedule st).1.uniqueShortened := by
  induction schedule with
  | nil => exact fun st h => h
  | cons i rest ih =>
    intro st h
    exact ih _ (advance_unique newId md5Sum i st h)

/-! ## The claims of the specification -/

/-- C1. For every 16-byte digest `sum` (hence for the MD5 digest of every UUID
string, whatever `md5.Sum` computes), the lowercase hexadecimal rendering
`hash` has 32 characters, so the slice bound `len(hash)-20` is within range:
the slice `hash[:len(hash)-20]` does not panic, and the token it yields has
exactly 12 characters, each of them in `0-9` or `a-f`. -/
theorem C1_token_is_12_lower_hex (sum : Bytes16) :
    let hash := Sprintf_x sum
    hash.length = 32 ∧
    (0 ≤ (hash.length : Int) - 20 ∧ (hash.length : Int) - 20 ≤ hash.length) ∧
    ∃ path, shortenPath sum = some path ∧ path.length = 12 ∧ ∀ c ∈ path, isLowerHex c := by
  intro hash
  have hlen : hash.length = 32 := Sprintf_x_length sum
  refine ⟨hlen, by omega, hash.take 12, shortenPath_eq _, ?_, ?_⟩
  · rw [List.length_take, hlen]
    rfl
  · intro c hc
    exact hexEncode_lowerHex _ c (List.mem_of_mem_take hc)

/-- C2 fails on the code. On the empty store, whose first identifier is "1",
the POST of any url succeeds with 201 and returns a token `path` in the
shortened field; the following GET /path, routed to `redirect`, looks the
token up in the column `id`, finds no row and answers 404 Not Found. -/
theorem C2_redirect_misses_created_token (md5Sum : GoString → Bytes16) (id : Bytes16)
    (url : GoString) :
    ∃ path,
      createRouter (table serialId) md5Sum
          (.postUrl (.ok (.object [(lit "url", .string url)])) (.ok id)) Table.empty =
        ([.Exec url path, .Get .shortened path,
          .JSON StatusCreated (.record ⟨lit "1", url, path⟩)],
         ⟨[⟨lit "1", url, path⟩], 1⟩) ∧
      createRouter (table serialId) md5Sum (.getPath path) ⟨[⟨lit "1", url, path⟩], 1⟩ =
        ([.Get .id path, .Println ErrNoRows,
          .JSON StatusNotFound (.text (lit "An error occurred"))],
         ⟨[⟨lit "1", url, path⟩], 1⟩) := by
  have hpath := shortenPath_eq (md5Sum (UUID.String id))
  generalize (Sprintf_x (md5Sum (UUID.String id))).take 12 = path at hpath
  have hlen12 := shortenPath_length _ path hpath
  have hne : ¬ lit "1" = path := by
    intro h
    rw [← h] at hlen12
    exact absurd hlen12 (by decide)
  have hkey : isUrlKey (lit "url") = true := by decide
  have hid : serialId 0 = lit "1" := by decide
  have h404 : getErrorCodeFromDBError ErrNoRows = StatusNotFound := by decide
  refine ⟨path, ?_, ?_⟩
  · simp [createRouter, shorten, BindJSON, decodeMembers, hkey, hpath, table, Table.Exec,
      Table.Get, Table.empty, Column.of, hid]
  · have hget : Params.Get [⟨lit "path", path⟩] (lit "path") = (path, true) := by
      simp [Params.Get]
    simp [createRouter, redirect, hget, table, Table.Get, Column.of, hne, h404]

/-- C3 fails on the code. In the store holding the record
`(id = "1", url = "https://example.com", shortened = "188ee1d9ab59")`,
GET /url/1 is answered 404 Not Found although the record with id "1" exists,
and GET /url/188ee1d9ab59 is answered with a 302 redirect to the url of the
record: `getUrl` matches records on `shortened`, not on `id`. -/
theorem C3_getUrl_matches_shortened :
    createRouter (table serialId) exampleMd5Sum (.getUrlId (lit "1")) exampleTable =
      ([.Get .shortened (lit "1"), .Println ErrNoRows,
        .JSON 404 (.text (lit "An error occurred"))], exampleTable) ∧
    createRouter (table serialId) exampleMd5Sum (.getUrlId (lit "188ee1d9ab59")) exampleTable =
      ([.Get .shortened (lit "188ee1d9ab59"), .Redirect 302 (lit "https://example.com")],
       exampleTable) := by
  decide

/-- C4. With a store that rejects an insert whose `shortened` is already
present, no two records have the same `shortened` in any state of the store
reached from the empty store, be it by requests served one after the other
(any sequence of requests of any route, POST /url among them), or by any
number of calls of `shorten` running concurrently, their statements on the
store interleaved in any order. -/
theorem C4_shortened_unique (newId : Nat → GoString) (md5Sum : GoString → Bytes16) :
    (∀ requests : List Request,
      (serve (table newId) md5Sum requests Table.empty).uniqueShortened) ∧
    (∀ (calls : List (RequestBody × Except error Bytes16)) (schedule : List Nat),
      (interleave (table newId) md5Sum schedule
        (Table.empty, calls.map fun c => Call.start c.1 c.2)).1.uniqueShortened) :=
  ⟨fun requests => serve_unique newId md5Sum requests Table.empty List.Pairwise.nil,
   fun calls schedule =>
    interleave_unique newId md5Sum schedule (Table.empty, calls.map fun c => Call.start c.1 c.2)
      List.Pairwise.nil⟩

/-- C5 fails on the code. In the store holding the record
`(id = "1", url = "https://example.com", shortened = "188ee1d9ab59")`, no
record carries the token "1", yet GET /1 is answered by `redirect` with a 302
redirect to `https://example.com`: the lookup is on the column `id`. -/
theorem C5_redirect_finds_by_id :
    (∀ r ∈ exampleTable.rows, r.Shortened ≠ lit "1") ∧
    createRouter (table serialId) exampleMd5Sum (.getPath (lit "1")) exampleTable =
      ([.Get .id (lit "1"), .Redirect 302 (lit "https://example.com")], exampleTable) := by
  decide

/-- C6. For every error, `getErrorCodeFromDBError` returns 404 exactly when
the message of the error contains the substring "no rows", returns 500 for
every other error, and returns no other status. -/
theorem C6_error_code_mapping (err : error) :
    (getErrorCodeFromDBError err = StatusNotFound ↔ lit "no rows" <:+: err.Error) ∧
    (¬ lit "no rows" <:+: err.Error →
      getErrorCodeFromDBError err = StatusInternalServerError) ∧
    (getErrorCodeFromDBError err = StatusNotFound ∨
      getErrorCodeFromDBError err = StatusInternalServerError) := by
  unfold getErrorCodeFromDBError
  by_cases h : strings.Contains err.Error (lit "no rows") = true
  · have hin := (strings.Contains_iff _ _).mp h
    simp [h, hin]
  · have hin : ¬ lit "no rows" <:+: err.Error := fun hc => h ((strings.Contains_iff _ _).mpr hc)
    simp [h, hin, StatusNotFound, StatusInternalServerError]

/-- C7. When the body binds, the token is generated, the insert succeeds and
the re-read of line 117 fails (`db.Get` returns an error, whatever it is, and
leaves `newUrlMap` as it was), `shorten` writes one response, 201 Created,
whose record has the submitted url and the generated token (the values
assigned at lines 115-116); the failure of the re-read is not reported. -/
theorem C7_reread_failure_still_created {σ : Type} (db : DB σ) (md5Sum : GoString → Bytes16)
    (id : Bytes16) (body : RequestBody) (requestBody : shortenRequestBody) (path : GoString)
    (s s1 s2 : σ) (e : error)
    (hbind : BindJSON body = .ok requestBody)
    (hpath : shortenPath (md5Sum (UUID.String id)) = some path)
    (hinsert : db.Exec s requestBody.Url path = (none, s1))
    (hreread : db.Get s1 .shortened path ⟨[], requestBody.Url, path⟩ =
      ((⟨[], requestBody.Url, path⟩, some e), s2)) :
    shorten db md5Sum (.ok id) body s =
      ([.Exec requestBody.Url path, .Get .shortened path,
        .JSON StatusCreated (.record ⟨[], requestBody.Url, path⟩)], s2) := by
  simp only [shorten, hbind, hpath, hinsert, hreread]

/-- C7, at a concrete input: the insert of `https://example.com` reaches the
empty store, the connection fails on the re-read. -/
theorem C7_reread_failure_still_created_witness :
    shorten (withFaults (table serialId)) exampleMd5Sum (.ok exampleUUID) exampleBody
        (Table.empty, [none, some ⟨lit "driver: bad connection"⟩]) =
      ([.Exec (lit "https://example.com") (lit "188ee1d9ab59"),
        .Get .shortened (lit "188ee1d9ab59"),
        .JSON StatusCreated (.record ⟨[], lit "https://example.com", lit "188ee1d9ab59"⟩)],
       (⟨[⟨lit "1", lit "https://example.com", lit "188ee1d9ab59"⟩], 1⟩, [])) :=
  C7_reread_failure_still_created (withFaults (table serialId)) exampleMd5Sum exampleUUID
    exampleBody ⟨lit "https://example.com"⟩ (lit "188ee1d9ab59")
    (Table.empty, [none, some ⟨lit "driver: bad connection"⟩])
    (⟨[⟨lit "1", lit "https://example.com", lit "188ee1d9ab59"⟩], 1⟩,
      [some ⟨lit "driver: bad connection"⟩])
    (⟨[⟨lit "1", lit "https://example.com", lit "188ee1d9ab59"⟩], 1⟩, [])
    ⟨lit "driver: bad connection"⟩ (by rfl) (by decide) (by decide) (by decide)

/-- C8, as the claim states it, fails: the body `{}`, a JSON object with no
`url` field, binds with the empty url; on the empty store `shorten` inserts
the record `("", token)` and answers 201 Created. -/
theorem C8_body_without_url_is_created :
    shorten (table serialId) exampleMd5Sum (.ok exampleUUID) (.ok (.object [])) Table.empty =
      ([.Exec [] (lit "188ee1d9ab59"), .Get .shortened (lit "188ee1d9ab59"),
        .JSON 201 (.record ⟨lit "1", [], lit "188ee1d9ab59"⟩)],
       ⟨[⟨lit "1", [], lit "188ee1d9ab59"⟩], 1⟩) := by
  decide

/-- C8, amended. For every store state, a POST /url whose body `c.BindJSON`
rejects (with any error `e`) is answered by `shorten` with 400 Bad Request,
without a statement on the store, which is left unchanged; a JSON object with
no `url` field is not such a body: it binds, with the empty url. -/
theorem C8_unbindable_body_is_400 {σ : Type} (db : DB σ) (md5Sum : GoString → Bytes16)
    (NewV7 : Except error Bytes16) (body : RequestBody) (e : error) (s : σ)
    (members : List (GoString × JSONValue))
    (hbind : BindJSON body = .error e)
    (hno : ∀ m ∈ members, isUrlKey m.1 = false) :
    shorten db md5Sum NewV7 body s =
      ([.AbortWithError StatusBadRequest e, .Println e,
        .JSON StatusBadRequest (.text (lit "An error occurred"))], s) ∧
    BindJSON (.ok (.object members)) = .ok ⟨[]⟩ := by
  constructor
  · simp only [shorten, hbind]
  · simp [BindJSON, decodeMembers_no_url members hno]

/-- C8 amended, at a concrete input: the body `{"url": 5}` is rejected, the
body `{"name": "x"}` binds. -/
theorem C8_unbindable_body_is_400_witness :
    shorten (table serialId) exampleMd5Sum (.ok exampleUUID)
        (.ok (.object [(lit "url", .number (lit "5"))])) exampleTable =
      ([.AbortWithError StatusBadRequest ⟨lit ("json: cannot unmarshal number into Go struct " ++
          "field shortenRequestBody.url of type string")⟩,
        .Println ⟨lit ("json: cannot unmarshal number into Go struct " ++
          "field shortenRequestBody.url of type string")⟩,
        .JSON StatusBadRequest (.text (lit "An error occurred"))], exampleTable) ∧
    BindJSON (.ok (.object [(lit "name", .string (lit "x"))])) = .ok ⟨[]⟩ :=
  C8_unbindable_body_is_400 (table serialId) exampleMd5Sum (.ok exampleUUID)
    (.ok (.object [(lit "url", .number (lit "5"))]))
    ⟨lit ("json: cannot unmarshal number into Go struct " ++
      "field shortenRequestBody.url of type string")⟩ exampleTable
    [(lit "name", .string (lit "x"))] (by rfl) (by decide)

/-- C9, as the claim states it, fails: called with a context that has no
`path` parameter, on the empty store, `redirect` writes 400 "Path missing",
then performs the lookup `id = ""` and writes a second response, 404. -/
theorem C9_missing_path_lookup_and_404 :
    redirect (table serialId) [] Table.empty =
      ([.JSON 400 (.text (lit "Path missing")), .Get .id [], .Println ErrNoRows,
        .JSON 404 (.text (lit "An error occurred"))], Table.empty) := by
  decide

/-- C9, amended. For every database handle and store state, a request that
the router dispatches to `redirect` (GET /:path) carries the `path` parameter:
`redirect` does not write 400 "Path missing" for it, performs one lookup, on
the captured path, and writes one response, a 302 redirect to the url of the
row found or the status of the store error. Called without the parameter,
`redirect` writes 400 Bad Request ("Path missing") before anything else; what
follows that response is not stated. -/
theorem C9_routed_redirect_one_response {σ : Type} (db : DB σ)
    (md5Sum : GoString → Bytes16) (path : GoString) (s : σ) :
    Params.Get [⟨lit "path", path⟩] (lit "path") = (path, true) ∧
    (createRouter db md5Sum (.getPath path) s =
      match db.Get s .id path ⟨[], [], []⟩ with
      | ((_, some err), s1) =>
        ([.Get .id path, .Println err,
          .JSON (getErrorCodeFromDBError err) (.text (lit "An error occurred"))], s1)
      | ((url, none), s1) => ([.Get .id path, .Redirect StatusFound url.Url], s1)) ∧
    (∀ c : Params, (Params.Get c (lit "path")).2 = false →
      ∃ rest, (redirect db c s).1 =
        .JSON StatusBadRequest (.text (lit "Path missing")) :: rest) := by
  refine ⟨by simp [Params.Get], redirect_routed db path s, ?_⟩
  intro c hmissing
  rw [redirect_missing_path db c s hmissing]
  split <;> exact ⟨_, rfl⟩

/-- C10, as the claim states it, fails: an insert error whose message contains
"no rows" (here the error `sql: no rows in result set`, returned by the store
on the insert) is answered with 404 Not Found, not with 500. -/
theorem C10_insert_error_no_rows_is_404 :
    shorten (withFaults (table serialId)) exampleMd5Sum (.ok exampleUUID) exampleBody
        (Table.empty, [some ErrNoRows]) =
      ([.Exec (lit "https://example.com") (lit "188ee1d9ab59"), .Println ErrNoRows,
        .JSON 404 (.text (lit "An error occurred"))], (Table.empty, [])) ∧
    (404 : Nat) ≠ StatusInternalServerError := by
  decide

/-- C10, amended. When the body binds, the token is generated and the insert
returns an error, `shorten` performs that one insert and no other statement,
logs the error and writes one response, a message and no record, whose status
is the one `getErrorCodeFromDBError` gives: 500 Internal Server Error for every
error whose message does not contain "no rows", 404 otherwise. -/
theorem C10_insert_error_response {σ : Type} (db : DB σ) (md5Sum : GoString → Bytes16)
    (id : Bytes16) (body : RequestBody) (requestBody : shortenRequestBody) (path : GoString)
    (s s1 : σ) (err : error)
    (hbind : BindJSON body = .ok requestBody)
    (hpath : shortenPath (md5Sum (UUID.String id)) = some path)
    (hinsert : db.Exec s requestBody.Url path = (some err, s1)) :
    ∃ code,
      shorten db md5Sum (.ok id) body s =
        ([.Exec requestBody.Url path, .Println err,
          .JSON code (.text (lit "An error occurred"))], s1) ∧
      (¬ lit "no rows" <:+: err.Error → code = StatusInternalServerError) ∧
      (lit "no rows" <:+: err.Error → code = StatusNotFound) := by
  refine ⟨getErrorCodeFromDBError err, ?_, ?_, ?_⟩
  · simp only [shorten, hbind, hpath, hinsert]
  · intro h
    unfold getErrorCodeFromDBError
    have hc : ¬ strings.Contains err.Error (lit "no rows") = true :=
      fun hc => h ((strings.Contains_iff _ _).mp hc)
    simp [hc]
  · intro h
    unfold getErrorCodeFromDBError
    simp [(strings.Contains_iff _ _).mpr h]

/-- C10 amended, at a concrete input: the token of the submission is already
in the store, the insert violates the uniqueness constraint, the answer is 500. -/
theorem C10_insert_error_response_witness :
    ∃ code,
      shorten (table serialId) exampleMd5Sum (.ok exampleUUID) exampleBody exampleTable =
        ([.Exec (lit "https://example.com") (lit "188ee1d9ab59"),
          .Println (ErrDuplicateKey "url_shortened_key"),
          .JSON code (.text (lit "An error occurred"))], exampleTable) ∧
      (¬ lit "no rows" <:+: (ErrDuplicateKey "url_shortened_key").Error →
        code = StatusInternalServerError) ∧
      (lit "no rows" <:+: (ErrDuplicateKey "url_shortened_key").Error →
        code = StatusNotFound) :=
  C10_insert_error_response (table serialId) exampleMd5Sum exampleUUID exampleBody
    ⟨lit "https://example.com"⟩ (lit "188ee1d9ab59") exampleTable exampleTable
    (ErrDuplicateKey "url_shortened_key") (by rfl) (by decide) (by decide)

end Shortener
